import Mathlib

/-!
A verification development for the CFMMC settlement-report crawler
(`program1.py`).  The Python source is shallowly embedded: pure helpers
(`get_trading_days`, `_generate_months_first_day`, path construction,
response classification) become Lean functions; the stateful session
client (`CFMMCCrawler`) becomes explicit state passing over an abstract
HTTP layer; the batch orchestrator (`DownloadThread.run`) becomes a
trace-producing function over an environment of oracles (login outcomes,
OCR results, task failures, the cooperative cancellation flag).

Python `datetime.date` values are modelled as year/month/day triples;
date comparison and weekday computation go through the standard
days-from-civil conversion, which coincides with CPython's ordinal-based
date ordering and `weekday()` for the proleptic Gregorian calendar.
-/

set_option maxHeartbeats 1000000

/-! ## Dates (model of `datetime.date` / `datetime.datetime` at day granularity) -/

structure Date where
  y : Int
  m : Int
  d : Int
deriving DecidableEq

/-- Days since 1970-01-01 for a proleptic-Gregorian date (valid for `y ≥ 1`,
`1 ≤ m ≤ 12`); this is CPython's `date.toordinal()` shifted by the epoch. -/
def daysFromCivil (dt : Date) : Int :=
  let yy := if dt.m ≤ 2 then dt.y - 1 else dt.y
  let era := yy / 400
  let yoe := yy - era * 400
  let mp := if 2 < dt.m then dt.m - 3 else dt.m + 9
  let doy := (153 * mp + 2) / 5 + dt.d - 1
  let doe := yoe * 365 + yoe / 4 - yoe / 100 + doy
  era * 146097 + doe - 719468

/-- `date.weekday()`: Monday = 0 … Sunday = 6 (1970-01-01 was a Thursday). -/
def weekday (dt : Date) : Int :=
  (daysFromCivil dt + 3) % 7

def isLeap (y : Int) : Bool :=
  (y % 4 == 0 && y % 100 != 0) || (y % 400 == 0)

def daysInMonth (y m : Int) : Int :=
  if m == 2 then (if isLeap y then 29 else 28)
  else if m == 4 || m == 6 || m == 9 || m == 11 then 30
  else 31

/-- `current + timedelta(days=1)` on the year/month/day representation. -/
def nextDay (dt : Date) : Date :=
  if dt.d < daysInMonth dt.y dt.m then ⟨dt.y, dt.m, dt.d + 1⟩
  else if dt.m < 12 then ⟨dt.y, dt.m + 1, 1⟩
  else ⟨dt.y + 1, 1, 1⟩

/-! ## `CFMMCCrawler.get_trading_days`: weekday enumeration over a closed range.
The Python `while current <= end` loop is embedded with explicit fuel; the
fuel `end - start + 1` (in days) bounds the number of iterations, so the
embedding agrees with the source loop on all inputs. -/

def get_trading_days_go : Nat → Date → Date → List Date
  | 0, _, _ => []
  | fuel + 1, current, endD =>
    if daysFromCivil current ≤ daysFromCivil endD then
      (if weekday current < 5 then [current] else []) ++
        get_trading_days_go fuel (nextDay current) endD
    else []

def get_trading_days (start endD : Date) : List Date :=
  get_trading_days_go (daysFromCivil endD - daysFromCivil start + 1).toNat start endD

/-! ## `CFMMCCrawler._generate_months_first_day`: first-of-month enumeration.
The source builds `date(start.y, start.m, 1)` and `date(end.y, end.m, 1)`
from the configured range and steps month by month while `start <= end`. -/

def next_month_first (s : Date) : Date :=
  if 12 < s.m + 1 then ⟨s.y + 1, 1, 1⟩ else ⟨s.y, s.m + 1, 1⟩

def months_go : Nat → Date → Date → List Date
  | 0, _, _ => []
  | fuel + 1, start, endD =>
    if daysFromCivil start ≤ daysFromCivil endD then
      start :: months_go fuel (next_month_first start) endD
    else []

def generate_months_first_day (startDate endDate : Date) : List Date :=
  let s : Date := ⟨startDate.y, startDate.m, 1⟩
  let e : Date := ⟨endDate.y, endDate.m, 1⟩
  months_go (daysFromCivil e - daysFromCivil s + 1).toNat s e

/-- Claim C5: daily period enumeration over the inclusive range 2024-01-01 to
2024-01-07 returns exactly the five weekday dates 2024-01-01 … 2024-01-05 in
chronological order, excluding the Saturday (01-06) and Sunday (01-07). -/
theorem trading_days_first_week_2024 :
    get_trading_days ⟨2024, 1, 1⟩ ⟨2024, 1, 7⟩ =
      [⟨2024, 1, 1⟩, ⟨2024, 1, 2⟩, ⟨2024, 1, 3⟩, ⟨2024, 1, 4⟩, ⟨2024, 1, 5⟩] ∧
    weekday ⟨2024, 1, 6⟩ = 5 ∧ weekday ⟨2024, 1, 7⟩ = 6 := by
  decide

/-- Claim C6: monthly period enumeration over the range 2024-01-15 to
2024-03-01 returns exactly the first-of-month dates
[2024-01-01, 2024-02-01, 2024-03-01] in chronological order, inclusive of
both endpoints' months. -/
theorem months_first_day_jan_to_mar_2024 :
    generate_months_first_day ⟨2024, 1, 15⟩ ⟨2024, 3, 1⟩ =
      [⟨2024, 1, 1⟩, ⟨2024, 2, 1⟩, ⟨2024, 3, 1⟩] := by
  decide

/-- Claim C10: when the start of the range lies strictly after its end (for
daily enumeration), or the first day of the start month lies strictly after
the first day of the end month (for monthly enumeration), both enumerators
return the empty list, producing zero tasks rather than an error. -/
theorem empty_range_enumerations :
    (∀ s e : Date, daysFromCivil e < daysFromCivil s → get_trading_days s e = []) ∧
    (∀ sd ed : Date,
      daysFromCivil ⟨ed.y, ed.m, 1⟩ < daysFromCivil ⟨sd.y, sd.m, 1⟩ →
      generate_months_first_day sd ed = []) := by
  constructor
  · intro s e h
    unfold get_trading_days
    rw [Int.toNat_of_nonpos (by omega)]
    rfl
  · intro sd ed h
    show months_go
      (daysFromCivil ⟨ed.y, ed.m, 1⟩ - daysFromCivil ⟨sd.y, sd.m, 1⟩ + 1).toNat
      ⟨sd.y, sd.m, 1⟩ ⟨ed.y, ed.m, 1⟩ = []
    rw [Int.toNat_of_nonpos (by omega)]
    rfl

/-- Witness for C10: concrete reversed ranges yield no periods. -/
theorem empty_range_enumerations_witness :
    get_trading_days ⟨2024, 1, 7⟩ ⟨2024, 1, 1⟩ = [] ∧
    generate_months_first_day ⟨2024, 3, 1⟩ ⟨2024, 1, 15⟩ = [] :=
  ⟨empty_range_enumerations.1 ⟨2024, 1, 7⟩ ⟨2024, 1, 1⟩ (by decide),
   empty_range_enumerations.2 ⟨2024, 3, 1⟩ ⟨2024, 1, 15⟩ (by decide)⟩

/-! ## Output path construction (`get_daily_data` / `get_monthly_data`).
Paths are modelled as character lists; `os.path.join(a, b)` for relative
components is `a ++ "/" ++ b`.  `strftime("%Y-%m-%d")` / `strftime("%Y-%m")`
zero-pad the month and day to two digits and the year to four, which is
what the fixed-width digit extraction below produces for the valid ranges
`1 ≤ y ≤ 9999`, `1 ≤ m ≤ 12`, `1 ≤ d ≤ 31` enforced by `datetime.date`. -/

def digitChar (n : Nat) : Char :=
  Char.ofNat (48 + n)

def format2 (n : Int) : List Char :=
  [digitChar ((n.toNat / 10) % 10), digitChar (n.toNat % 10)]

def format4 (n : Int) : List Char :=
  [digitChar ((n.toNat / 1000) % 10), digitChar ((n.toNat / 100) % 10),
   digitChar ((n.toNat / 10) % 10), digitChar (n.toNat % 10)]

/-- `date.strftime("%Y-%m-%d")`. -/
def formatYMD (dt : Date) : List Char :=
  format4 dt.y ++ '-' :: format2 dt.m ++ '-' :: format2 dt.d

/-- `month.strftime("%Y-%m")`. -/
def formatYM (dt : Date) : List Char :=
  format4 dt.y ++ '-' :: format2 dt.m

def path_join (a b : List Char) : List Char :=
  a ++ '/' :: b

/-- `full_path` computed by `get_daily_data`:
`{output_dir}/{division_name}/{query_type}/{division_name}-{company_short}_{YYYY-MM-DD}.xls`. -/
def daily_full_path (output_dir division_name company_short : List Char)
    (dt : Date) (query_type : List Char) : List Char :=
  path_join (path_join (path_join output_dir division_name) query_type)
    (division_name ++ '-' :: company_short ++ '_' :: formatYMD dt ++ ".xls".data)

/-- `full_path` computed by `get_monthly_data`:
`{output_dir}/月报/{query_type}/{division_name}-{company_short}_{YYYY-MM}.xls`. -/
def monthly_full_path (output_dir division_name company_short : List Char)
    (dt : Date) (query_type : List Char) : List Char :=
  path_join (path_join (path_join output_dir "月报".data) query_type)
    (division_name ++ '-' :: company_short ++ '_' :: formatYM dt ++ ".xls".data)

/-- Claim C8: the output path is a pure function of
(output_dir, division_name, company_short, period, query_type) — equal
inputs give equal paths — and, for a fixed account and period, two
different query types give distinct daily paths and distinct monthly
paths, and a daily path never equals a monthly path. -/
theorem output_path_determinism_and_distinctness :
    (∀ o₁ o₂ dv₁ dv₂ c₁ c₂ : List Char, ∀ dt₁ dt₂ : Date, ∀ q₁ q₂ : List Char,
      o₁ = o₂ → dv₁ = dv₂ → c₁ = c₂ → dt₁ = dt₂ → q₁ = q₂ →
      daily_full_path o₁ dv₁ c₁ dt₁ q₁ = daily_full_path o₂ dv₂ c₂ dt₂ q₂ ∧
      monthly_full_path o₁ dv₁ c₁ dt₁ q₁ = monthly_full_path o₂ dv₂ c₂ dt₂ q₂) ∧
    (∀ o dv c : List Char, ∀ dt : Date, ∀ q₁ q₂ : List Char, q₁ ≠ q₂ →
      daily_full_path o dv c dt q₁ ≠ daily_full_path o dv c dt q₂) ∧
    (∀ o dv c : List Char, ∀ dt : Date, ∀ q₁ q₂ : List Char, q₁ ≠ q₂ →
      monthly_full_path o dv c dt q₁ ≠ monthly_full_path o dv c dt q₂) ∧
    (∀ o dv c : List Char, ∀ dt₁ dt₂ : Date, ∀ q : List Char,
      daily_full_path o dv c dt₁ q ≠ monthly_full_path o dv c dt₂ q) := by
  refine ⟨?_, ?_, ?_, ?_⟩
  · rintro o _ dv _ c _ dt _ q _ rfl rfl rfl rfl rfl; exact ⟨rfl, rfl⟩
  · intro o dv c dt q₁ q₂ hne heq
    apply hne
    have h0 : ((o ++ '/' :: dv) ++ '/' :: q₁) ++
          '/' :: (dv ++ '-' :: c ++ '_' :: formatYMD dt ++ ".xls".data) =
        ((o ++ '/' :: dv) ++ '/' :: q₂) ++
          '/' :: (dv ++ '-' :: c ++ '_' :: formatYMD dt ++ ".xls".data) := heq
    exact (List.cons.inj (List.append_cancel_left (List.append_cancel_right h0))).2
  · intro o dv c dt q₁ q₂ hne heq
    apply hne
    have h0 : ((o ++ '/' :: "月报".data) ++ '/' :: q₁) ++
          '/' :: (dv ++ '-' :: c ++ '_' :: formatYM dt ++ ".xls".data) =
        ((o ++ '/' :: "月报".data) ++ '/' :: q₂) ++
          '/' :: (dv ++ '-' :: c ++ '_' :: formatYM dt ++ ".xls".data) := heq
    exact (List.cons.inj (List.append_cancel_left (List.append_cancel_right h0))).2
  · intro o dv c dt₁ dt₂ q heq
    have hlen := congrArg List.length heq
    simp only [daily_full_path, monthly_full_path, path_join, formatYMD, formatYM,
      format4, format2, List.length_append, List.length_cons, String.data,
      List.length] at hlen
    omega

/-- Witness for C8 at concrete inputs: determinism, query-type distinctness,
and daily/monthly distinctness at explicit strings and dates. -/
theorem output_path_determinism_and_distinctness_witness :
    daily_full_path "./downloads".data "甲部".data "AA".data ⟨2024, 1, 5⟩ "逐日".data =
      daily_full_path "./downloads".data "甲部".data "AA".data ⟨2024, 1, 5⟩ "逐日".data ∧
    daily_full_path "./downloads".data "甲部".data "AA".data ⟨2024, 1, 5⟩ "逐日".data ≠
      daily_full_path "./downloads".data "甲部".data "AA".data ⟨2024, 1, 5⟩ "逐笔".data ∧
    monthly_full_path "./downloads".data "甲部".data "AA".data ⟨2024, 1, 1⟩ "逐日".data ≠
      monthly_full_path "./downloads".data "甲部".data "AA".data ⟨2024, 1, 1⟩ "逐笔".data ∧
    daily_full_path "./downloads".data "甲部".data "AA".data ⟨2024, 1, 5⟩ "逐日".data ≠
      monthly_full_path "./downloads".data "甲部".data "AA".data ⟨2024, 1, 1⟩ "逐日".data :=
  ⟨(output_path_determinism_and_distinctness.1 _ _ _ _ _ _ _ _ _ _
      rfl rfl rfl rfl rfl).1,
   output_path_determinism_and_distinctness.2.1 _ _ _ _ _ _ (by decide),
   output_path_determinism_and_distinctness.2.2.1 _ _ _ _ _ _ (by decide),
   output_path_determinism_and_distinctness.2.2.2 _ _ _ _ _ _⟩

/-! ## `CFMMCCrawler.login`: response-body classification.
The response page is abstracted as its text (a character list, with
Python's `in` substring test embedded as `containsSub`) together with the
token that `_get_token` would scrape from it.  The crawler's `self.token`
is an `Option String` (initially `None`). -/

def containsSub (needle hay : List Char) : Bool :=
  hay.tails.any (fun t => needle.isPrefixOf t)

def captchaErrorMarker : List Char := "验证码错误".data

def credentialErrorMarker : List Char := "请勿在公用电脑上记录您的查询密码".data

inductive LoginResult
  | verificationCodeError
  | userNamePasswordError
  | loggedIn
deriving DecidableEq

structure LoginPage where
  text : List Char
  scrapedToken : String

/-- `CFMMCCrawler.login` (lines 101–121): check the CAPTCHA-rejection marker
first, then the credential-rejection marker, otherwise scrape and store the
new token. The first component is the outcome (which exception is raised,
if any); the second is `self.token` after the call. -/
def login (token : Option String) (page : LoginPage) : LoginResult × Option String :=
  if containsSub captchaErrorMarker page.text then
    (.verificationCodeError, token)
  else if containsSub credentialErrorMarker page.text then
    (.userNamePasswordError, token)
  else
    (.loggedIn, some page.scrapedToken)

/-- Claim C7: the login attempt classifies the response body in order —
CAPTCHA-rejection marker ⇒ retryable `VerificationCodeError` with no token
stored; else credential-rejection marker ⇒ terminal `UserNamePasswordError`
with no token stored; otherwise the token scraped from the response is
stored, authenticating the session. -/
theorem login_response_classification (st : Option String) (page : LoginPage) :
    (containsSub captchaErrorMarker page.text = true →
      login st page = (.verificationCodeError, st)) ∧
    (containsSub captchaErrorMarker page.text = false →
      containsSub credentialErrorMarker page.text = true →
      login st page = (.userNamePasswordError, st)) ∧
    (containsSub captchaErrorMarker page.text = false →
      containsSub credentialErrorMarker page.text = false →
      login st page = (.loggedIn, some page.scrapedToken)) := by
  refine ⟨fun h1 => ?_, fun h1 h2 => ?_, fun h1 h2 => ?_⟩
  · simp [login, h1]
  · simp [login, h1, h2]
  · simp [login, h1, h2]

/-- Witness for C7: concrete pages exercising all three classification
branches (the second page contains both the credential marker only, the
third contains neither marker). -/
theorem login_response_classification_witness :
    login none ⟨"...验证码错误...".data, "t1"⟩ = (.verificationCodeError, none) ∧
    login none ⟨"请勿在公用电脑上记录您的查询密码".data, "t2"⟩ =
      (.userNamePasswordError, none) ∧
    login none ⟨"欢迎".data, "t3"⟩ = (.loggedIn, some "t3") :=
  ⟨(login_response_classification none ⟨"...验证码错误...".data, "t1"⟩).1 (by decide),
   (login_response_classification none
      ⟨"请勿在公用电脑上记录您的查询密码".data, "t2"⟩).2.1 (by decide) (by decide),
   (login_response_classification none ⟨"欢迎".data, "t3"⟩).2.2 (by decide) (by decide)⟩

/-! ## Token continuity (`get_daily_data` / `get_monthly_data` / `logout`).
Authenticated POSTs are reified as records of the form fields actually
sent; the response to the data-selection POST is abstracted by the token
`_get_token` scrapes from it. -/

structure PostRequest where
  url : String
  tokenField : Option String
  tradeDate : Option String
  byType : Option String
deriving DecidableEq

def data_url : String := "https://investorservice.cfmmc.com/customer/setParameter.do"

def logout_url : String := "https://investorservice.cfmmc.com/logout.do"

/-- `query_type_dict = {'逐日': 'day', '逐笔': 'trade'}` lookup. -/
def query_type_dict (qt : String) : Option String :=
  if qt = "逐日" then some "day" else if qt = "逐笔" then some "trade" else none

/-- `CFMMCCrawler.get_daily_data` (session part, lines 135–155): fails
(`none`) unless logged in with a valid query type (`_check_args`);
otherwise posts the data-selection request carrying the stored token and
overwrites the stored token with the one scraped from the response.
Returns the request sent and the new `self.token`. -/
def get_daily_data (token : Option String) (dt : Date) (qt : String)
    (respToken : String) : Option (PostRequest × Option String) :=
  match token with
  | none => none
  | some t =>
    match query_type_dict qt with
    | none => none
    | some by_type =>
      some ({ url := data_url, tokenField := some t,
              tradeDate := some ⟨formatYMD dt⟩, byType := some by_type },
            some respToken)

/-- `CFMMCCrawler.get_monthly_data` (session part, lines 157–177). -/
def get_monthly_data (token : Option String) (dt : Date) (qt : String)
    (respToken : String) : Option (PostRequest × Option String) :=
  match token with
  | none => none
  | some t =>
    match query_type_dict qt with
    | none => none
    | some by_type =>
      some ({ url := data_url, tokenField := some t,
              tradeDate := some ⟨formatYM dt⟩, byType := some by_type },
            some respToken)

/-- `CFMMCCrawler.logout` (lines 123–127): if a token is stored, POST to the
logout URL — with no form data at all — and clear the token; otherwise do
nothing.  Returns the requests issued and the new `self.token`. -/
def logout (token : Option String) : List PostRequest × Option String :=
  match token with
  | none => ([], none)
  | some _ =>
    ([{ url := logout_url, tokenField := none, tradeDate := none, byType := none }],
     none)

/-- Counterexample to C3: the logout POST issued from an authenticated
session does not carry the stored token (it carries no token field at
all), so not every authenticated POST supplies the most recently stored
token. -/
theorem logout_post_carries_no_token_cex :
    (logout (some "tok0")).1 =
      [{ url := logout_url, tokenField := none, tradeDate := none, byType := none }] ∧
    ¬ ∀ r ∈ (logout (some "tok0")).1, r.tokenField = some "tok0" := by
  constructor
  · rfl
  · decide

/-- Claim C3 as amended: the data-selection POSTs (daily and monthly) carry
the most recently stored token and the stored token is overwritten with the
token scraped from the response before the next call; the logout POST,
however, carries no token field, and logout clears the stored token. -/
theorem token_continuity_data_selection_logout (t : String) (dt : Date)
    (qt : String) (respToken : String) :
    ((query_type_dict qt).isSome →
      ∃ by_type, query_type_dict qt = some by_type ∧
      get_daily_data (some t) dt qt respToken =
        some ({ url := data_url, tokenField := some t,
                tradeDate := some ⟨formatYMD dt⟩, byType := some by_type },
              some respToken) ∧
      get_monthly_data (some t) dt qt respToken =
        some ({ url := data_url, tokenField := some t,
                tradeDate := some ⟨formatYM dt⟩, byType := some by_type },
              some respToken)) ∧
    (logout (some t) =
      ([{ url := logout_url, tokenField := none, tradeDate := none, byType := none }],
       none)) := by
  constructor
  · intro h
    match hq : query_type_dict qt with
    | none => rw [hq] at h; exact absurd h (by simp)
    | some by_type =>
      exact ⟨by_type, rfl, by simp [get_daily_data, hq], by simp [get_monthly_data, hq]⟩
  · rfl

/-- Witness for C3 (amended) at a concrete token, date and query type. -/
theorem token_continuity_data_selection_logout_witness :
    (∃ by_type, query_type_dict "逐日" = some by_type ∧
      get_daily_data (some "tokA") ⟨2024, 1, 5⟩ "逐日" "tokB" =
        some ({ url := data_url, tokenField := some "tokA",
                tradeDate := some ⟨formatYMD ⟨2024, 1, 5⟩⟩, byType := some by_type },
              some "tokB") ∧
      get_monthly_data (some "tokA") ⟨2024, 1, 5⟩ "逐日" "tokB" =
        some ({ url := data_url, tokenField := some "tokA",
                tradeDate := some ⟨formatYM ⟨2024, 1, 5⟩⟩, byType := some by_type },
              some "tokB")) ∧
    logout (some "tokA") =
      ([{ url := logout_url, tokenField := none, tradeDate := none, byType := none }],
       none) :=
  ⟨(token_continuity_data_selection_logout "tokA" ⟨2024, 1, 5⟩ "逐日" "tokB").1
     (by decide),
   (token_continuity_data_selection_logout "tokA" ⟨2024, 1, 5⟩ "逐日" "tokB").2⟩

/-! ## The batch orchestrator (`DownloadThread.run`).
`run` is embedded as a trace-producing function over an environment of
oracles: the outcome of each login attempt (per account and attempt
number), the CAPTCHA image and OCR text, the result of the human-input
wait (operator code, or cancellation arriving while suspended), per-task
download failures, and the shared cancellation flag.  The flag is read at
the same program points as the source (`if self.cancelled` checks); each
read consumes an index `k` into the boolean sequence `cancelFlag`, and the
observed value is latched (`c || cancelFlag k`), reproducing the
set-once/no-retraction discipline of the real flag.  Account-level
exceptions other than the ones the source classifies (the `except` arms of
the login loop and the per-task handlers) have no source in this model;
`logout` and message formatting are total. -/

structure Account where
  division_name : String
  company_short : String
  account_no : String
  password : String

structure BatchConfig where
  report_types : List String
  query_types : List String
  start_date : Date
  end_date : Date

inductive DownloadTask
  | daily (day : Date) (query_type : String)
  | monthly (month : Date) (query_type : String)
deriving DecidableEq

inductive CodeSrc
  | auto (code : String)
  | operator (code : String)
deriving DecidableEq

inductive TraceAction
  | loginAttempt (account : Nat) (src : CodeSrc)
  | emitLoginFailed (msg : String)
  | emitCaptchaRequired (image : Nat)
  | downloadAttempt (account : Nat) (task : DownloadTask)
  | emitProgress (pct : Int) (msg : String)
  | emitError (msg : String)
  | logoutCall (account : Nat)
  | emitFinished
deriving DecidableEq

inductive LoginOutcome
  | pageError (msg : String)
  | wrongCode
  | wrongPassword
  | otherError (msg : String)
  | success

inductive WaitResult
  | supplied (code : String)
  | cancelledWait

structure Env where
  loginOutcome : Nat → Nat → LoginOutcome
  captchaImage : Nat → Nat → Nat
  ocrCode : Nat → String
  waitResult : Nat → WaitResult
  taskFail : Nat → DownloadTask → Option String
  cancelFlag : Nat → Bool

/-- `self.max_retry = 1000`. -/
def max_retry : Nat := 1000

def formatYMDstr (dt : Date) : String := ⟨formatYMD dt⟩

def formatYMstr (dt : Date) : String := ⟨formatYM dt⟩

/-- `int((current_task * 100 + (idx + 1) / total_inner * 100) / total_tasks)`
(the float arithmetic of the source is modelled exactly over `ℚ`; all
quantities are nonnegative, so `int` truncation is `floor`). -/
def progressPct (current_task j total_inner total_tasks : Nat) : Int :=
  Rat.floor (((current_task : ℚ) * 100 + (j : ℚ) / (total_inner : ℚ) * 100) /
    (total_tasks : ℚ))

/-- `int((idx + 1) / total_accounts * 100)`. -/
def accountPct (idx total_accounts : Nat) : Int :=
  Rat.floor (((idx : ℚ) + 1) / (total_accounts : ℚ) * 100)

structure LoopRes where
  success : Bool
  cancelled : Bool
  k : Nat
  trace : List TraceAction

/-- The login loop of `DownloadThread.run` (lines 259–296).  Arguments
after `maxRetry`: fuel (an upper bound on remaining iterations — each
iteration either exits or increments `retry_count`, so `maxRetry + 1`
initial fuel is never exhausted), `retry_count`, the attempt number used
to index the oracles, the cancel-read index `k`, and the latched value of
`self.cancelled`.  On `VerificationCodeError` at the threshold the source
emits the two events, waits for operator input, and then `break`s out of
the loop: the supplied code is assigned to a variable that is never read
again, so no further login attempt happens in either wait outcome. -/
def login_loop_go (env : Env) (a : Nat) (acct : Account) (maxRetry : Nat) :
    Nat → Nat → Nat → Nat → Bool → LoopRes
  | 0, _retry, _att, k, c => ⟨false, c, k, []⟩
  | fuel + 1, retry, att, k, c =>
    if maxRetry ≤ retry then ⟨false, c, k, []⟩
    else
      let c1 := c || env.cancelFlag k
      if c1 then ⟨false, c1, k + 1, []⟩
      else
        let attemptAct := TraceAction.loginAttempt a
          (.auto (env.ocrCode (env.captchaImage a att)))
        match env.loginOutcome a att with
        | .pageError msg =>
          ⟨false, c1, k + 1,
            [.emitLoginFailed (acct.division_name ++ " 登录失败: " ++ msg)]⟩
        | .success => ⟨true, c1, k + 1, [attemptAct]⟩
        | .wrongPassword =>
          ⟨false, c1, k + 1,
            [attemptAct, .emitLoginFailed (acct.company_short ++ " 用户名密码错误!")]⟩
        | .otherError msg =>
          ⟨false, c1, k + 1,
            [attemptAct, .emitLoginFailed (acct.division_name ++ " 登录失败: " ++ msg)]⟩
        | .wrongCode =>
          if maxRetry ≤ retry + 1 then
            let esc := [attemptAct,
              .emitLoginFailed (acct.division_name ++ " 登录失败: 验证码错误次数过多"),
              .emitCaptchaRequired (env.captchaImage a att)]
            match env.waitResult a with
            | .cancelledWait => ⟨false, true, k + 1, esc⟩
            | .supplied _code => ⟨false, c1 || env.cancelFlag (k + 1), k + 2, esc⟩
          else
            let rest := login_loop_go env a acct maxRetry fuel (retry + 1)
              (att + 1) (k + 1) c1
            ⟨rest.success, rest.cancelled, rest.k, attemptAct :: rest.trace⟩

def login_loop_result (env : Env) (a : Nat) (acct : Account) (k : Nat)
    (c : Bool) : LoopRes :=
  login_loop_go env a acct max_retry (max_retry + 1) 0 0 k c

structure PhaseRes where
  k : Nat
  cancelled : Bool
  trace : List TraceAction

structure QueryRes where
  ct : Nat
  k : Nat
  cancelled : Bool
  trace : List TraceAction

/-- The inner `for day_idx, date in enumerate(trading_days)` loop
(lines 325–336): cancellation check, then the guarded call to
`get_daily_data`, emitting a progress update on success or an error event
on failure. -/
def daily_day_loop (env : Env) (a : Nat) (acct : Account) (qt : String)
    (total_days total_tasks : Nat) (current_task : Nat) :
    List Date → Nat → Nat → Bool → PhaseRes
  | [], _i, k, c => ⟨k, c, []⟩
  | day :: rest, i, k, c =>
    let c1 := c || env.cancelFlag k
    if c1 then ⟨k + 1, c1, []⟩
    else
      match env.taskFail a (.daily day qt) with
      | none =>
        let r := daily_day_loop env a acct qt total_days total_tasks current_task
          rest (i + 1) (k + 1) c1
        ⟨r.k, r.cancelled,
          .downloadAttempt a (.daily day qt) ::
          .emitProgress (progressPct current_task (i + 1) total_days total_tasks)
            (acct.division_name ++ " - " ++ formatYMDstr day ++ " " ++ qt ++
              "报表下载完成") :: r.trace⟩
      | some msg =>
        let r := daily_day_loop env a acct qt total_days total_tasks current_task
          rest (i + 1) (k + 1) c1
        ⟨r.k, r.cancelled,
          .downloadAttempt a (.daily day qt) ::
          .emitError (acct.division_name ++ " " ++ formatYMDstr day ++ " " ++ qt ++
            "报表下载失败: " ++ msg) :: r.trace⟩

/-- The `for query_type in query_types` loop of the daily block
(lines 321–338), incrementing `current_task` after each inner loop. -/
def daily_query_loop (env : Env) (a : Nat) (acct : Account) (days : List Date)
    (total_days total_tasks : Nat) :
    List String → Nat → Nat → Bool → QueryRes
  | [], ct, k, c => ⟨ct, k, c, []⟩
  | qt :: qts, ct, k, c =>
    let c1 := c || env.cancelFlag k
    if c1 then ⟨ct, k + 1, c1, []⟩
    else
      let r := daily_day_loop env a acct qt total_days total_tasks ct days 0 (k + 1) c1
      let r2 := daily_query_loop env a acct days total_days total_tasks qts
        (ct + 1) r.k r.cancelled
      ⟨r2.ct, r2.k, r2.cancelled, r.trace ++ r2.trace⟩

/-- The inner month loop of the monthly block (lines 349–360). -/
def monthly_month_loop (env : Env) (a : Nat) (acct : Account) (qt : String)
    (total_months total_tasks : Nat) (current_task : Nat) :
    List Date → Nat → Nat → Bool → PhaseRes
  | [], _i, k, c => ⟨k, c, []⟩
  | mon :: rest, i, k, c =>
    let c1 := c || env.cancelFlag k
    if c1 then ⟨k + 1, c1, []⟩
    else
      match env.taskFail a (.monthly mon qt) with
      | none =>
        let r := monthly_month_loop env a acct qt total_months total_tasks
          current_task rest (i + 1) (k + 1) c1
        ⟨r.k, r.cancelled,
          .downloadAttempt a (.monthly mon qt) ::
          .emitProgress (progressPct current_task (i + 1) total_months total_tasks)
            (acct.division_name ++ " - " ++ formatYMstr mon ++ " " ++ qt ++
              "报表下载完成") :: r.trace⟩
      | some msg =>
        let r := monthly_month_loop env a acct qt total_months total_tasks
          current_task rest (i + 1) (k + 1) c1
        ⟨r.k, r.cancelled,
          .downloadAttempt a (.monthly mon qt) ::
          .emitError (acct.division_name ++ " " ++ formatYMstr mon ++ " " ++ qt ++
            "报表下载失败: " ++ msg) :: r.trace⟩

/-- The `for query_type in query_types` loop of the monthly block
(lines 345–362). -/
def monthly_query_loop (env : Env) (a : Nat) (acct : Account) (months : List Date)
    (total_months total_tasks : Nat) :
    List String → Nat → Nat → Bool → QueryRes
  | [], ct, k, c => ⟨ct, k, c, []⟩
  | qt :: qts, ct, k, c =>
    let c1 := c || env.cancelFlag k
    if c1 then ⟨ct, k + 1, c1, []⟩
    else
      let r := monthly_month_loop env a acct qt total_months total_tasks ct months
        0 (k + 1) c1
      let r2 := monthly_query_loop env a acct months total_months total_tasks qts
        (ct + 1) r.k r.cancelled
      ⟨r2.ct, r2.k, r2.cancelled, r.trace ++ r2.trace⟩

/-- `total_tasks` (lines 308–312). -/
def total_tasks_of (cfg : BatchConfig) : Nat :=
  (if "日报" ∈ cfg.report_types then cfg.query_types.length else 0) +
    (if "月报" ∈ cfg.report_types then cfg.query_types.length else 0)

/-- The download section for one account (lines 301–362): the daily block
followed by the monthly block, threading `current_task`. -/
def task_phase (env : Env) (cfg : BatchConfig) (a : Nat) (acct : Account)
    (k : Nat) (c : Bool) : QueryRes :=
  let tt := total_tasks_of cfg
  let r1 :=
    if "日报" ∈ cfg.report_types then
      let days := get_trading_days cfg.start_date cfg.end_date
      daily_query_loop env a acct days days.length tt cfg.query_types 0 k c
    else ⟨0, k, c, []⟩
  let r2 :=
    if "月报" ∈ cfg.report_types then
      let months := generate_months_first_day cfg.start_date cfg.end_date
      monthly_query_loop env a acct months months.length tt cfg.query_types
        r1.ct r1.k r1.cancelled
    else ⟨r1.ct, r1.k, r1.cancelled, []⟩
  ⟨r2.ct, r2.k, r2.cancelled, r1.trace ++ r2.trace⟩

/-- One iteration of the account loop (lines 240–373): the login loop,
the `if not login_success or self.cancelled: continue` check (note the
short-circuit: the flag is read only when login succeeded), the download
section, `crawler.logout()`, and the per-account completion update.  On
the `continue` paths no `logout` call is recorded, mirroring the source. -/
def account_run (env : Env) (cfg : BatchConfig) (total_accounts : Nat)
    (a : Nat) (acct : Account) (k : Nat) (c : Bool) : Nat × Bool × List TraceAction :=
  let res := login_loop_result env a acct k c
  if res.success then
    let c3 := res.cancelled || env.cancelFlag res.k
    if c3 then (res.k + 1, c3, res.trace)
    else
      let r := task_phase env cfg a acct (res.k + 1) c3
      (r.k, r.cancelled,
        res.trace ++ r.trace ++
          [.logoutCall a,
           .emitProgress (accountPct a total_accounts)
             (acct.division_name ++ " 下载完成")])
  else (res.k, res.cancelled, res.trace)

/-- The `for idx, account in enumerate(self.accounts)` loop plus the final
`self.finished.emit()` (lines 240–375). -/
def run_go (env : Env) (cfg : BatchConfig) (total_accounts : Nat) :
    List Account → Nat → Nat → Bool → List TraceAction
  | [], _idx, _k, _c => [.emitFinished]
  | acct :: rest, idx, k, c =>
    let c1 := c || env.cancelFlag k
    if c1 then [.emitFinished]
    else
      let s := account_run env cfg total_accounts idx acct (k + 1) c1
      s.2.2 ++ run_go env cfg total_accounts rest (idx + 1) s.1 s.2.1

/-- `DownloadThread.run`. -/
def thread_run (env : Env) (accounts : List Account) (cfg : BatchConfig) :
    List TraceAction :=
  run_go env cfg accounts.length accounts 0 0 false

/-- The progress percentages emitted in a trace, in order. -/
def progress_values (tr : List TraceAction) : List Int :=
  tr.filterMap fun x => match x with | .emitProgress p _ => some p | _ => none

/-- The download attempts recorded in a trace, in order. -/
def attempted_tasks (tr : List TraceAction) : List DownloadTask :=
  tr.filterMap fun x => match x with | .downloadAttempt _ t => some t | _ => none

def is_error_event : TraceAction → Bool
  | .emitError _ => true
  | _ => false

def is_operator_attempt : TraceAction → Bool
  | .loginAttempt _ (.operator _) => true
  | _ => false

def is_login_attempt : TraceAction → Bool
  | .loginAttempt _ _ => true
  | _ => false

set_option maxRecDepth 1000000

/-! ## Concrete environments used as failing inputs / counterexamples. -/

def acctA : Account := ⟨"甲部", "AA", "1", "p"⟩

def acctB : Account := ⟨"乙部", "BB", "2", "p"⟩

def cfg_one : BatchConfig := ⟨["日报"], ["逐日"], ⟨2024, 1, 1⟩, ⟨2024, 1, 1⟩⟩

/-- Environment in which every automatic login attempt fails with
`VerificationCodeError`, the operator supplies "7890" when asked, nothing
else fails, and cancellation is never requested. -/
def env_allvce : Env where
  loginOutcome := fun _ _ => .wrongCode
  captchaImage := fun _ _ => 0
  ocrCode := fun _ => "0000"
  waitResult := fun _ => .supplied "7890"
  taskFail := fun _ _ => none
  cancelFlag := fun _ => false

/-- Environment in which the first login attempt raises
`UserNamePasswordError`. -/
def env_badpw : Env where
  loginOutcome := fun _ _ => .wrongPassword
  captchaImage := fun _ _ => 0
  ocrCode := fun _ => "0000"
  waitResult := fun _ => .supplied "7890"
  taskFail := fun _ _ => none
  cancelFlag := fun _ => false

/-- Environment in which everything succeeds and cancellation is never
requested. -/
def env_allok : Env where
  loginOutcome := fun _ _ => .success
  captchaImage := fun _ _ => 0
  ocrCode := fun _ => "0000"
  waitResult := fun _ => .supplied "7890"
  taskFail := fun _ _ => none
  cancelFlag := fun _ => false

/-- Claim C1, evaluated at the failing input: with the CAPTCHA rejected on
every automatic attempt and the operator supplying text "7890" once the
counter reaches `max_retry = 1000`, the login loop emits the
CAPTCHA-required event and then performs *no* further login attempt — the
1000 attempts in the trace are all OCR-based, none carries operator text —
and the account is abandoned (`login_success` stays false).  The
spec-mandated single retry with the supplied text never happens: the
source binds the supplied code to `verification_code` and immediately
`break`s, leaving the binding dead. -/
theorem login_escalation_discards_operator_code :
    (login_loop_result env_allvce 0 acctA 0 false).success = false ∧
    TraceAction.emitCaptchaRequired 0 ∈ (login_loop_result env_allvce 0 acctA 0 false).trace ∧
    (login_loop_result env_allvce 0 acctA 0 false).trace.countP
      (fun x => is_login_attempt x) = 1000 ∧
    (login_loop_result env_allvce 0 acctA 0 false).trace.any is_operator_attempt = false := by
  refine ⟨by decide, by decide, by decide, by decide⟩

/-- The login loop never records a `logout` call (used for C2). -/
theorem login_loop_no_logout (env : Env) (a x : Nat) (acct : Account)
    (m : Nat) : ∀ fuel retry att k c,
    TraceAction.logoutCall x ∉ (login_loop_go env a acct m fuel retry att k c).trace := by
  intro fuel
  induction fuel with
  | zero => intro retry att k c; simp [login_loop_go]
  | succ fuel ih =>
    intro retry att k c
    simp only [login_loop_go]
    split
    · simp
    · split
      · simp
      · cases env.loginOutcome a att <;> simp
        · split
          · cases env.waitResult a <;> simp
          · simpa using ih (retry + 1) (att + 1) (k + 1) _

/-- If the login loop reports success, the latched cancellation value it
returns is false (success exits in an iteration whose flag read was
false). -/
theorem login_loop_success_not_cancelled (env : Env) (a : Nat) (acct : Account)
    (m : Nat) : ∀ fuel retry att k c,
    (login_loop_go env a acct m fuel retry att k c).success = true →
    (login_loop_go env a acct m fuel retry att k c).cancelled = false := by
  intro fuel
  induction fuel with
  | zero => intro retry att k c h; simp [login_loop_go] at h
  | succ fuel ih =>
    intro retry att k c
    simp only [login_loop_go]
    split
    · simp
    · rcases hc : (c || env.cancelFlag k) with _ | _
      · simp only [hc, if_false, Bool.false_eq_true]
        cases env.loginOutcome a att <;> simp
        · split
          · cases env.waitResult a <;> simp
          · exact ih (retry + 1) (att + 1) (k + 1) false
      · simp [hc]

/-- Counterexample to C2: in a one-account batch whose login fails with
`UserNamePasswordError`, the whole run trace contains no `logout` call at
all — the login-failure exit path reaches the next account via `continue`
without attempting `logout()`. -/
theorem logout_skipped_on_login_failure_cex :
    thread_run env_badpw [acctA] cfg_one =
      [.loginAttempt 0 (.auto "0000"), .emitLoginFailed "AA 用户名密码错误!",
       .emitFinished] ∧
    TraceAction.logoutCall 0 ∉ thread_run env_badpw [acctA] cfg_one := by
  refine ⟨by decide, by decide⟩

/-- Claim C2 as amended: on runs without account-level exceptions, an
account's processing attempts `logout()` if and only if its login loop
succeeded and cancellation is not observed at the post-login check:
(1) a failed login loop (including cancellation during login) moves on to
the next account without attempting `logout()`; (2) when login succeeded
but the post-login `self.cancelled` read is true, `logout()` is likewise
skipped; (3) when login succeeded and that read is false, `logout()` is
attempted — in particular cancellation arriving mid-tasks still reaches
it. -/
theorem logout_exactly_after_successful_login (env : Env) (cfg : BatchConfig)
    (ta a : Nat) (acct : Account) (k : Nat) (c : Bool) :
    ((login_loop_result env a acct k c).success = false →
      TraceAction.logoutCall a ∉ (account_run env cfg ta a acct k c).2.2) ∧
    ((login_loop_result env a acct k c).success = true →
      env.cancelFlag (login_loop_result env a acct k c).k = true →
      TraceAction.logoutCall a ∉ (account_run env cfg ta a acct k c).2.2) ∧
    ((login_loop_result env a acct k c).success = true →
      env.cancelFlag (login_loop_result env a acct k c).k = false →
      TraceAction.logoutCall a ∈ (account_run env cfg ta a acct k c).2.2) := by
  refine ⟨?_, ?_, ?_⟩
  · intro h
    simp only [account_run, h, Bool.false_eq_true, if_false]
    exact login_loop_no_logout env a a acct max_retry (max_retry + 1) 0 0 k c
  · intro h hflag
    simp only [account_run, h, hflag, Bool.or_true, if_true, ite_true]
    exact login_loop_no_logout env a a acct max_retry (max_retry + 1) 0 0 k c
  · intro h hflag
    have hnc : (login_loop_result env a acct k c).cancelled = false :=
      login_loop_success_not_cancelled env a acct max_retry (max_retry + 1) 0 0 k c h
    simp [account_run, h, hnc, hflag]

/-- Environment in which login succeeds immediately and cancellation is
requested between the login success and the post-login check: the flag
reads false at index 0 (the login loop's condition check) and true from
index 1 on (set once, never retracted). -/
def env_cancel_at_check : Env where
  loginOutcome := fun _ _ => .success
  captchaImage := fun _ _ => 0
  ocrCode := fun _ => "0000"
  waitResult := fun _ => .supplied "7890"
  taskFail := fun _ _ => none
  cancelFlag := fun n => decide (1 ≤ n)

/-- Witness for C2 (amended): a concrete failed-login account records no
logout call, a concrete account whose cancellation is observed at the
post-login check records none either, and a concrete successful account
records one. -/
theorem logout_exactly_after_successful_login_witness :
    TraceAction.logoutCall 0 ∉ (account_run env_badpw cfg_one 1 0 acctA 0 false).2.2 ∧
    TraceAction.logoutCall 0 ∉
      (account_run env_cancel_at_check cfg_one 1 0 acctA 0 false).2.2 ∧
    TraceAction.logoutCall 0 ∈ (account_run env_allok cfg_one 1 0 acctA 0 false).2.2 :=
  ⟨(logout_exactly_after_successful_login env_badpw cfg_one 1 0 acctA 0 false).1
      (by decide),
   (logout_exactly_after_successful_login env_cancel_at_check cfg_one 1 0 acctA
      0 false).2.1 (by decide) (by decide),
   (logout_exactly_after_successful_login env_allok cfg_one 1 0 acctA 0 false).2.2
      (by decide) (by decide)⟩

/-- Counterexample to C4: in a fully successful two-account batch with one
daily task each, the emitted progress percentages are [100, 50, 100, 100]
— the per-task update of the first account reaches 100 and the following
per-account completion update drops back to 50, so the whole-batch
sequence is not monotonically non-decreasing. -/
theorem batch_progress_not_monotone_cex :
    progress_values (thread_run env_allok [acctA, acctB] cfg_one) =
      [100, 50, 100, 100] ∧
    ¬ List.Chain' (· ≤ ·) (progress_values (thread_run env_allok [acctA, acctB] cfg_one)) := by
  have h : progress_values (thread_run env_allok [acctA, acctB] cfg_one) =
      [100, 50, 100, 100] := by with_unfolding_all decide
  refine ⟨h, ?_⟩
  rw [h]
  intro hch
  rw [List.chain'_cons] at hch
  exact absurd hch.1 (by decide)

/-- The task set enumerated for one account: the daily block's tasks
(query types × trading days) followed by the monthly block's tasks
(query types × first-of-month dates), in the orchestrator's order. -/
def tasks_of (cfg : BatchConfig) : List DownloadTask :=
  (if "日报" ∈ cfg.report_types then
    cfg.query_types.flatMap (fun qt =>
      (get_trading_days cfg.start_date cfg.end_date).map
        (fun d => DownloadTask.daily d qt))
   else []) ++
  (if "月报" ∈ cfg.report_types then
    cfg.query_types.flatMap (fun qt =>
      (generate_months_first_day cfg.start_date cfg.end_date).map
        (fun d => DownloadTask.monthly d qt))
   else [])

/-- With cancellation never requested, the inner daily loop attempts every
remaining trading day in order, emits one error event per failing task,
and does not become cancelled. -/
theorem daily_day_loop_nc (env : Env) (a : Nat) (acct : Account) (qt : String)
    (N T ct : Nat) (hc : ∀ n, env.cancelFlag n = false) :
    ∀ l : List Date, ∀ i k : Nat,
    attempted_tasks (daily_day_loop env a acct qt N T ct l i k false).trace =
      l.map (fun d => DownloadTask.daily d qt) ∧
    (daily_day_loop env a acct qt N T ct l i k false).trace.countP is_error_event =
      l.countP (fun d => (env.taskFail a (.daily d qt)).isSome) ∧
    (daily_day_loop env a acct qt N T ct l i k false).cancelled = false := by
  intro l
  induction l with
  | nil => intro i k; simp [daily_day_loop, attempted_tasks]
  | cons d rest ih =>
    intro i k
    obtain ⟨ih1, ih2, ih3⟩ := ih (i + 1) (k + 1)
    simp only [attempted_tasks] at ih1 ⊢
    simp only [daily_day_loop, hc, Bool.or_false]
    cases hf : env.taskFail a (.daily d qt) <;>
      simp [is_error_event, hf, ih1, ih2, ih3, List.countP_cons]

/-- Monthly analogue of `daily_day_loop_nc`. -/
theorem monthly_month_loop_nc (env : Env) (a : Nat) (acct : Account) (qt : String)
    (N T ct : Nat) (hc : ∀ n, env.cancelFlag n = false) :
    ∀ l : List Date, ∀ i k : Nat,
    attempted_tasks (monthly_month_loop env a acct qt N T ct l i k false).trace =
      l.map (fun d => DownloadTask.monthly d qt) ∧
    (monthly_month_loop env a acct qt N T ct l i k false).trace.countP is_error_event =
      l.countP (fun d => (env.taskFail a (.monthly d qt)).isSome) ∧
    (monthly_month_loop env a acct qt N T ct l i k false).cancelled = false := by
  intro l
  induction l with
  | nil => intro i k; simp [monthly_month_loop, attempted_tasks]
  | cons d rest ih =>
    intro i k
    obtain ⟨ih1, ih2, ih3⟩ := ih (i + 1) (k + 1)
    simp only [attempted_tasks] at ih1 ⊢
    simp only [monthly_month_loop, hc, Bool.or_false]
    cases hf : env.taskFail a (.monthly d qt) <;>
      simp [is_error_event, hf, ih1, ih2, ih3, List.countP_cons]

/-- With cancellation never requested, the daily query-type loop attempts
exactly the daily task set (query types × trading days, in order). -/
theorem daily_query_loop_nc (env : Env) (a : Nat) (acct : Account)
    (days : List Date) (N T : Nat) (hc : ∀ n, env.cancelFlag n = false) :
    ∀ qts : List String, ∀ ct k : Nat,
    attempted_tasks (daily_query_loop env a acct days N T qts ct k false).trace =
      qts.flatMap (fun qt => days.map (fun d => DownloadTask.daily d qt)) ∧
    (daily_query_loop env a acct days N T qts ct k false).trace.countP is_error_event =
      (qts.flatMap (fun qt => days.map (fun d => DownloadTask.daily d qt))).countP
        (fun t => (env.taskFail a t).isSome) ∧
    (daily_query_loop env a acct days N T qts ct k false).cancelled = false := by
  intro qts
  induction qts with
  | nil => intro ct k; simp [daily_query_loop, attempted_tasks]
  | cons qt rest ih =>
    intro ct k
    obtain ⟨hd1, hd2, hd3⟩ := daily_day_loop_nc env a acct qt N T ct hc days 0 (k + 1)
    have hcanc := hd3
    obtain ⟨ih1, ih2, ih3⟩ := ih (ct + 1)
      (daily_day_loop env a acct qt N T ct days 0 (k + 1) false).k
    simp only [daily_query_loop, hc, Bool.or_false]
    rw [hcanc]
    simp only [attempted_tasks] at hd1 ih1 ⊢
    simp [List.filterMap_append, List.countP_append, hd1, hd2, ih1, ih2, ih3,
      List.countP_map, hcanc, Function.comp]
    rfl

/-- Monthly analogue of `daily_query_loop_nc`. -/
theorem monthly_query_loop_nc (env : Env) (a : Nat) (acct : Account)
    (months : List Date) (N T : Nat) (hc : ∀ n, env.cancelFlag n = false) :
    ∀ qts : List String, ∀ ct k : Nat,
    attempted_tasks (monthly_query_loop env a acct months N T qts ct k false).trace =
      qts.flatMap (fun qt => months.map (fun d => DownloadTask.monthly d qt)) ∧
    (monthly_query_loop env a acct months N T qts ct k false).trace.countP is_error_event =
      (qts.flatMap (fun qt => months.map (fun d => DownloadTask.monthly d qt))).countP
        (fun t => (env.taskFail a t).isSome) ∧
    (monthly_query_loop env a acct months N T qts ct k false).cancelled = false := by
  intro qts
  induction qts with
  | nil => intro ct k; simp [monthly_query_loop, attempted_tasks]
  | cons qt rest ih =>
    intro ct k
    obtain ⟨hd1, hd2, hd3⟩ := monthly_month_loop_nc env a acct qt N T ct hc months 0 (k + 1)
    have hcanc := hd3
    obtain ⟨ih1, ih2, ih3⟩ := ih (ct + 1)
      (monthly_month_loop env a acct qt N T ct months 0 (k + 1) false).k
    simp only [monthly_query_loop, hc, Bool.or_false]
    rw [hcanc]
    simp only [attempted_tasks] at hd1 ih1 ⊢
    simp [List.filterMap_append, List.countP_append, hd1, hd2, ih1, ih2, ih3,
      List.countP_map, hcanc, Function.comp]
    rfl

/-- Claim C9: with cancellation never requested, the task phase of an
account attempts every task of its enumerated task set, in order,
regardless of which individual downloads fail — a per-task failure is
caught, counted as exactly one error event, and never aborts the
remaining tasks. -/
theorem per_task_failure_isolated (env : Env) (cfg : BatchConfig) (a : Nat)
    (acct : Account) (k : Nat) (hc : ∀ n, env.cancelFlag n = false) :
    attempted_tasks (task_phase env cfg a acct k false).trace = tasks_of cfg ∧
    (task_phase env cfg a acct k false).trace.countP is_error_event =
      (tasks_of cfg).countP (fun t => (env.taskFail a t).isSome) := by
  simp only [task_phase, tasks_of]
  by_cases h1 : "日报" ∈ cfg.report_types <;> by_cases h2 : "月报" ∈ cfg.report_types <;>
    simp only [h1, h2, if_true, if_false, ite_true, ite_false]
  · obtain ⟨d1, d2, d3⟩ := daily_query_loop_nc env a acct
      (get_trading_days cfg.start_date cfg.end_date)
      (get_trading_days cfg.start_date cfg.end_date).length
      (total_tasks_of cfg) hc cfg.query_types 0 k
    rw [d3]
    obtain ⟨m1, m2, m3⟩ := monthly_query_loop_nc env a acct
      (generate_months_first_day cfg.start_date cfg.end_date)
      (generate_months_first_day cfg.start_date cfg.end_date).length
      (total_tasks_of cfg) hc cfg.query_types
      (daily_query_loop env a acct (get_trading_days cfg.start_date cfg.end_date)
        (get_trading_days cfg.start_date cfg.end_date).length
        (total_tasks_of cfg) cfg.query_types 0 k false).ct
      (daily_query_loop env a acct (get_trading_days cfg.start_date cfg.end_date)
        (get_trading_days cfg.start_date cfg.end_date).length
        (total_tasks_of cfg) cfg.query_types 0 k false).k
    simp only [attempted_tasks] at d1 m1 ⊢
    simp [List.filterMap_append, List.countP_append, d1, d2, m1, m2]
  · obtain ⟨d1, d2, d3⟩ := daily_query_loop_nc env a acct
      (get_trading_days cfg.start_date cfg.end_date)
      (get_trading_days cfg.start_date cfg.end_date).length
      (total_tasks_of cfg) hc cfg.query_types 0 k
    simp only [attempted_tasks] at d1 ⊢
    simp [d1, d2]
  · obtain ⟨m1, m2, m3⟩ := monthly_query_loop_nc env a acct
      (generate_months_first_day cfg.start_date cfg.end_date)
      (generate_months_first_day cfg.start_date cfg.end_date).length
      (total_tasks_of cfg) hc cfg.query_types 0 k
    simp only [attempted_tasks] at m1 ⊢
    simp [m1, m2]
  · simp [attempted_tasks]

/-- Witness for C9: a concrete account in which the single daily task fails
is still attempted, and the failure produces exactly one error event. -/
theorem per_task_failure_isolated_witness :
    attempted_tasks (task_phase
        { loginOutcome := fun _ _ => .success, captchaImage := fun _ _ => 0,
          ocrCode := fun _ => "0000", waitResult := fun _ => .supplied "7890",
          taskFail := fun _ _ => some "网络错误", cancelFlag := fun _ => false }
        cfg_one 0 acctA 0 false).trace = tasks_of cfg_one ∧
    (task_phase
        { loginOutcome := fun _ _ => .success, captchaImage := fun _ _ => 0,
          ocrCode := fun _ => "0000", waitResult := fun _ => .supplied "7890",
          taskFail := fun _ _ => some "网络错误", cancelFlag := fun _ => false }
        cfg_one 0 acctA 0 false).trace.countP is_error_event =
      (tasks_of cfg_one).countP (fun t =>
        (({ loginOutcome := fun _ _ => .success, captchaImage := fun _ _ => 0,
            ocrCode := fun _ => "0000", waitResult := fun _ => .supplied "7890",
            taskFail := fun _ _ => some "网络错误",
            cancelFlag := fun _ => false } : Env).taskFail 0 t).isSome) :=
  per_task_failure_isolated
    { loginOutcome := fun _ _ => .success, captchaImage := fun _ _ => 0,
      ocrCode := fun _ => "0000", waitResult := fun _ => .supplied "7890",
      taskFail := fun _ _ => some "网络错误", cancelFlag := fun _ => false }
    cfg_one 0 acctA 0 (fun _ => rfl)

/-- `Rat.floor` agrees with the `Int.floor` of the `FloorRing` structure. -/
theorem rat_floor_eq_int_floor (q : ℚ) : Rat.floor q = Int.floor q :=
  (Rat.floor_def' q).trans Rat.floor_def.symm

theorem q_div_le_div (a b c : ℚ) (hab : a ≤ b) (hc : 0 ≤ c) : a / c ≤ b / c := by
  rw [div_eq_mul_inv, div_eq_mul_inv]
  exact mul_le_mul_of_nonneg_right hab (inv_nonneg.2 hc)

/-- The within-task position 0 contributes nothing: the inner total is
irrelevant. -/
theorem pp_zero_inner (ct N N' T : Nat) :
    progressPct ct 0 N T = progressPct ct 0 N' T := by
  simp [progressPct]

/-- The progress formula is monotone in the within-task position. -/
theorem pp_mono_j (ct N T : Nat) {j j' : Nat} (h : j ≤ j') :
    progressPct ct j N T ≤ progressPct ct j' N T := by
  unfold progressPct
  rw [rat_floor_eq_int_floor, rat_floor_eq_int_floor]
  apply Int.floor_le_floor
  apply q_div_le_div _ _ _ _ (by positivity)
  have hdiv : (j : ℚ) / (N : ℚ) ≤ (j' : ℚ) / (N : ℚ) :=
    q_div_le_div _ _ _ (by exact_mod_cast h) (by positivity)
  nlinarith [hdiv]

/-- At the end of a task (`j = total_inner`) the progress formula is at most
the start-of-next-task value. -/
theorem pp_le_next (ct N T : Nat) {j : Nat} (h : j ≤ N) :
    progressPct ct j N T ≤ progressPct (ct + 1) 0 0 T := by
  have hjN : (j : ℚ) / (N : ℚ) ≤ 1 := by
    rcases Nat.eq_zero_or_pos N with hN | hN
    · subst hN
      have : j = 0 := Nat.le_zero.mp h
      simp [this]
    · rw [div_le_one (by exact_mod_cast hN)]
      exact_mod_cast h
  unfold progressPct
  rw [rat_floor_eq_int_floor, rat_floor_eq_int_floor]
  apply Int.floor_le_floor
  apply q_div_le_div _ _ _ _ (by positivity)
  push_cast
  nlinarith [hjN]

/-- The start-of-task value is monotone in the completed-task count. -/
theorem pp_ct_mono (N T : Nat) {ct ct' : Nat} (h : ct ≤ ct') :
    progressPct ct 0 N T ≤ progressPct ct' 0 N T := by
  unfold progressPct
  rw [rat_floor_eq_int_floor, rat_floor_eq_int_floor]
  apply Int.floor_le_floor
  apply q_div_le_div _ _ _ _ (by positivity)
  have : (ct : ℚ) ≤ (ct' : ℚ) := by exact_mod_cast h
  nlinarith [this]

/-- The progress values emitted by the inner daily loop are sorted and lie
between the value at the current position and the start-of-next-task
value. -/
theorem daily_day_loop_sorted (env : Env) (a : Nat) (acct : Account)
    (qt : String) (N T ct : Nat) :
    ∀ (l : List Date) (i k : Nat) (c : Bool), i + l.length ≤ N →
    List.Chain' (· ≤ ·)
      (progress_values (daily_day_loop env a acct qt N T ct l i k c).trace) ∧
    ∀ v ∈ progress_values (daily_day_loop env a acct qt N T ct l i k c).trace,
      progressPct ct (i + 1) N T ≤ v ∧ v ≤ progressPct (ct + 1) 0 0 T := by
  intro l
  induction l with
  | nil => intro i k c _; simp [daily_day_loop, progress_values]
  | cons d rest ih =>
    intro i k c hlen
    have hi1 : i + 1 ≤ N := by simp only [List.length_cons] at hlen; omega
    obtain ⟨ihc, ihb⟩ := ih (i + 1) (k + 1) false
      (by simp only [List.length_cons] at hlen; omega)
    simp only [daily_day_loop]
    rcases hc1 : (c || env.cancelFlag k) with _ | _
    · simp only [Bool.false_eq_true, if_false]
      cases hf : env.taskFail a (.daily d qt)
      · simp only [progress_values, List.filterMap_cons] at ihc ihb ⊢
        constructor
        · rw [List.chain'_cons']
          refine ⟨fun y hy => ?_, ihc⟩
          have hmem := List.mem_of_mem_head? hy
          exact le_trans (pp_mono_j ct N T (Nat.le_succ (i + 1))) (ihb y hmem).1
        · intro v hv
          rcases List.mem_cons.mp hv with rfl | hv'
          · exact ⟨le_refl _, pp_le_next ct N T hi1⟩
          · exact ⟨le_trans (pp_mono_j ct N T (Nat.le_succ (i + 1))) (ihb v hv').1,
              (ihb v hv').2⟩
      · simp only [progress_values, List.filterMap_cons] at ihc ihb ⊢
        refine ⟨ihc, fun v hv => ?_⟩
        exact ⟨le_trans (pp_mono_j ct N T (Nat.le_succ (i + 1))) (ihb v hv).1,
          (ihb v hv).2⟩
    · simp [progress_values]

/-- Monthly analogue of `daily_day_loop_sorted`. -/
theorem monthly_month_loop_sorted (env : Env) (a : Nat) (acct : Account)
    (qt : String) (N T ct : Nat) :
    ∀ (l : List Date) (i k : Nat) (c : Bool), i + l.length ≤ N →
    List.Chain' (· ≤ ·)
      (progress_values (monthly_month_loop env a acct qt N T ct l i k c).trace) ∧
    ∀ v ∈ progress_values (monthly_month_loop env a acct qt N T ct l i k c).trace,
      progressPct ct (i + 1) N T ≤ v ∧ v ≤ progressPct (ct + 1) 0 0 T := by
  intro l
  induction l with
  | nil => intro i k c _; simp [monthly_month_loop, progress_values]
  | cons d rest ih =>
    intro i k c hlen
    have hi1 : i + 1 ≤ N := by simp only [List.length_cons] at hlen; omega
    obtain ⟨ihc, ihb⟩ := ih (i + 1) (k + 1) false
      (by simp only [List.length_cons] at hlen; omega)
    simp only [monthly_month_loop]
    rcases hc1 : (c || env.cancelFlag k) with _ | _
    · simp only [Bool.false_eq_true, if_false]
      cases hf : env.taskFail a (.monthly d qt)
      · simp only [progress_values, List.filterMap_cons] at ihc ihb ⊢
        constructor
        · rw [List.chain'_cons']
          refine ⟨fun y hy => ?_, ihc⟩
          have hmem := List.mem_of_mem_head? hy
          exact le_trans (pp_mono_j ct N T (Nat.le_succ (i + 1))) (ihb y hmem).1
        · intro v hv
          rcases List.mem_cons.mp hv with rfl | hv'
          · exact ⟨le_refl _, pp_le_next ct N T hi1⟩
          · exact ⟨le_trans (pp_mono_j ct N T (Nat.le_succ (i + 1))) (ihb v hv').1,
              (ihb v hv').2⟩
      · simp only [progress_values, List.filterMap_cons] at ihc ihb ⊢
        refine ⟨ihc, fun v hv => ?_⟩
        exact ⟨le_trans (pp_mono_j ct N T (Nat.le_succ (i + 1))) (ihb v hv).1,
          (ihb v hv).2⟩
    · simp [progress_values]

theorem progress_values_append (l1 l2 : List TraceAction) :
    progress_values (l1 ++ l2) = progress_values l1 ++ progress_values l2 :=
  List.filterMap_append l1 l2 _

/-- The progress values emitted by the daily query-type loop are sorted and
lie between the start-of-`ct` value and the start value of the returned
task count. -/
theorem daily_query_loop_sorted (env : Env) (a : Nat) (acct : Account)
    (days : List Date) (N T : Nat) (hdays : days.length ≤ N) :
    ∀ (qts : List String) (ct k : Nat) (c : Bool),
    ct ≤ (daily_query_loop env a acct days N T qts ct k c).ct ∧
    List.Chain' (· ≤ ·)
      (progress_values (daily_query_loop env a acct days N T qts ct k c).trace) ∧
    ∀ v ∈ progress_values (daily_query_loop env a acct days N T qts ct k c).trace,
      progressPct ct 0 0 T ≤ v ∧
      v ≤ progressPct (daily_query_loop env a acct days N T qts ct k c).ct 0 0 T := by
  intro qts
  induction qts with
  | nil => intro ct k c; simp [daily_query_loop, progress_values]
  | cons qt rest ih =>
    intro ct k c
    simp only [daily_query_loop]
    rcases hc1 : (c || env.cancelFlag k) with _ | _
    · simp only [Bool.false_eq_true, if_false]
      obtain ⟨dc, db⟩ := daily_day_loop_sorted env a acct qt N T ct days 0 (k + 1)
        false (by simpa using hdays)
      obtain ⟨ict, ichain, ib⟩ := ih (ct + 1)
        (daily_day_loop env a acct qt N T ct days 0 (k + 1) false).k
        (daily_day_loop env a acct qt N T ct days 0 (k + 1) false).cancelled
      refine ⟨le_trans (Nat.le_succ ct) ict, ?_, ?_⟩
      · rw [progress_values_append]
        refine List.Chain'.append dc ichain (fun x hx y hy => ?_)
        exact le_trans ((db x (List.mem_of_mem_getLast? hx)).2)
          ((ib y (List.mem_of_mem_head? hy)).1)
      · rw [progress_values_append]
        intro v hv
        rcases List.mem_append.mp hv with hvA | hvB
        · refine ⟨?_, le_trans (db v hvA).2 (pp_ct_mono 0 T ict)⟩
          calc progressPct ct 0 0 T = progressPct ct 0 N T := pp_zero_inner ct 0 N T
            _ ≤ progressPct ct (0 + 1) N T := pp_mono_j ct N T (Nat.zero_le _)
            _ ≤ v := (db v hvA).1
        · exact ⟨le_trans (pp_ct_mono 0 T (Nat.le_succ ct)) (ib v hvB).1,
            (ib v hvB).2⟩
    · simp [progress_values]

/-- Monthly analogue of `daily_query_loop_sorted`. -/
theorem monthly_query_loop_sorted (env : Env) (a : Nat) (acct : Account)
    (months : List Date) (N T : Nat) (hmonths : months.length ≤ N) :
    ∀ (qts : List String) (ct k : Nat) (c : Bool),
    ct ≤ (monthly_query_loop env a acct months N T qts ct k c).ct ∧
    List.Chain' (· ≤ ·)
      (progress_values (monthly_query_loop env a acct months N T qts ct k c).trace) ∧
    ∀ v ∈ progress_values (monthly_query_loop env a acct months N T qts ct k c).trace,
      progressPct ct 0 0 T ≤ v ∧
      v ≤ progressPct (monthly_query_loop env a acct months N T qts ct k c).ct 0 0 T := by
  intro qts
  induction qts with
  | nil => intro ct k c; simp [monthly_query_loop, progress_values]
  | cons qt rest ih =>
    intro ct k c
    simp only [monthly_query_loop]
    rcases hc1 : (c || env.cancelFlag k) with _ | _
    · simp only [Bool.false_eq_true, if_false]
      obtain ⟨dc, db⟩ := monthly_month_loop_sorted env a acct qt N T ct months 0
        (k + 1) false (by simpa using hmonths)
      obtain ⟨ict, ichain, ib⟩ := ih (ct + 1)
        (monthly_month_loop env a acct qt N T ct months 0 (k + 1) false).k
        (monthly_month_loop env a acct qt N T ct months 0 (k + 1) false).cancelled
      refine ⟨le_trans (Nat.le_succ ct) ict, ?_, ?_⟩
      · rw [progress_values_append]
        refine List.Chain'.append dc ichain (fun x hx y hy => ?_)
        exact le_trans ((db x (List.mem_of_mem_getLast? hx)).2)
          ((ib y (List.mem_of_mem_head? hy)).1)
      · rw [progress_values_append]
        intro v hv
        rcases List.mem_append.mp hv with hvA | hvB
        · refine ⟨?_, le_trans (db v hvA).2 (pp_ct_mono 0 T ict)⟩
          calc progressPct ct 0 0 T = progressPct ct 0 N T := pp_zero_inner ct 0 N T
            _ ≤ progressPct ct (0 + 1) N T := pp_mono_j ct N T (Nat.zero_le _)
            _ ≤ v := (db v hvA).1
        · exact ⟨le_trans (pp_ct_mono 0 T (Nat.le_succ ct)) (ib v hvB).1,
            (ib v hvB).2⟩
    · simp [progress_values]

/-- Claim C4 as amended: within a single account's task phase, the
per-task progress percentages are emitted in monotonically non-decreasing
order (for any environment, configuration and cancellation behaviour).
The whole-batch sequence is not monotone: per-account completion updates
can drop below the preceding per-task update, as the counterexample
shows. -/
theorem account_task_progress_monotone (env : Env) (cfg : BatchConfig)
    (a : Nat) (acct : Account) (k : Nat) (c : Bool) :
    List.Chain' (· ≤ ·) (progress_values (task_phase env cfg a acct k c).trace) := by
  simp only [task_phase]
  by_cases h1 : "日报" ∈ cfg.report_types <;> by_cases h2 : "月报" ∈ cfg.report_types <;>
    simp only [h1, h2, if_true, if_false, ite_true, ite_false]
  · obtain ⟨dct, dchain, db⟩ := daily_query_loop_sorted env a acct
      (get_trading_days cfg.start_date cfg.end_date)
      (get_trading_days cfg.start_date cfg.end_date).length
      (total_tasks_of cfg) (le_refl _) cfg.query_types 0 k c
    obtain ⟨mct, mchain, mb⟩ := monthly_query_loop_sorted env a acct
      (generate_months_first_day cfg.start_date cfg.end_date)
      (generate_months_first_day cfg.start_date cfg.end_date).length
      (total_tasks_of cfg) (le_refl _) cfg.query_types
      (daily_query_loop env a acct (get_trading_days cfg.start_date cfg.end_date)
        (get_trading_days cfg.start_date cfg.end_date).length
        (total_tasks_of cfg) cfg.query_types 0 k c).ct
      (daily_query_loop env a acct (get_trading_days cfg.start_date cfg.end_date)
        (get_trading_days cfg.start_date cfg.end_date).length
        (total_tasks_of cfg) cfg.query_types 0 k c).k
      (daily_query_loop env a acct (get_trading_days cfg.start_date cfg.end_date)
        (get_trading_days cfg.start_date cfg.end_date).length
        (total_tasks_of cfg) cfg.query_types 0 k c).cancelled
    rw [progress_values_append]
    refine List.Chain'.append dchain mchain (fun x hx y hy => ?_)
    exact le_trans ((db x (List.mem_of_mem_getLast? hx)).2)
      ((mb y (List.mem_of_mem_head? hy)).1)
  · obtain ⟨dct, dchain, db⟩ := daily_query_loop_sorted env a acct
      (get_trading_days cfg.start_date cfg.end_date)
      (get_trading_days cfg.start_date cfg.end_date).length
      (total_tasks_of cfg) (le_refl _) cfg.query_types 0 k c
    simpa [progress_values_append] using dchain
  · obtain ⟨mct, mchain, mb⟩ := monthly_query_loop_sorted env a acct
      (generate_months_first_day cfg.start_date cfg.end_date)
      (generate_months_first_day cfg.start_date cfg.end_date).length
      (total_tasks_of cfg) (le_refl _) cfg.query_types 0 k c
    simpa [progress_values_append] using mchain
  · simp [progress_values]
